import Mathlib

/-
Shallow embedding of the finSight backend request handlers.

Sources embedded:
  * src/backend/src/controllers/assetController.ts
      (getAssets, addAsset, updateAsset, deleteAsset)
  * the auth controller (register, login)

The relational store (Prisma) is modelled as an in-memory list of rows
plus an auto-increment counter.  Request-body fields arrive as JSON
values that may be absent (undefined), null, or a string; JavaScript
truthiness on such a field treats undefined, null and the empty string
as falsy.  The password-hash primitive (bcrypt) and its verifier are
opaque function parameters.  Timestamps are natural numbers.
-/

/-- A JSON request-body field as the controllers see it: absent
(JavaScript undefined), JSON null, or a string value. -/
inductive JVal where
  | undef
  | null
  | str (s : String)
deriving DecidableEq

/-- JavaScript truthiness of a request-body field: undefined, null and
the empty string are falsy, every non-empty string is truthy. -/
def JVal.truthy : JVal → Bool
  | .str s => !(s == "")
  | _ => false

/-- The string carried by a field (the empty string when absent or null;
only ever used on fields already known to be truthy). -/
def JVal.getStr : JVal → String
  | .str s => s
  | _ => ""

/-- One row of the asset table.  Field `ty` embeds the column named
type in the source (a Lean keyword).  The schema-managed updatedAt
column is not touched by any controller and is omitted. -/
structure Asset where
  id : Nat
  userId : Nat
  symbol : String
  name : String
  ty : String
  notes : Option String
  createdAt : Nat
deriving DecidableEq

/-- The asset table: its rows plus the auto-increment id counter. -/
structure AssetStore where
  assets : List Asset
  nextId : Nat
deriving DecidableEq

/-- One row of the user table; password holds the stored hash. -/
structure User where
  id : Nat
  email : String
  username : String
  password : String
  createdAt : Nat
deriving DecidableEq

/-- The public projection of a user returned by register
(select id, email, username, createdAt). -/
structure UserPublic where
  id : Nat
  email : String
  username : String
  createdAt : Nat
deriving DecidableEq

/-- The user projection returned by login ({id, email, username}). -/
structure UserBrief where
  id : Nat
  email : String
  username : String
deriving DecidableEq

/-- The claim set signed into a JWT by generateToken. -/
structure Token where
  userId : Nat
  email : String
  username : String
deriving DecidableEq

/-- The JSON body of a response, one constructor per body shape the
embedded handlers produce. -/
inductive RespBody where
  | err (msg : String)
  | assets (l : List Asset)
  | assetMsg (msg : String) (a : Asset)
  | msg (m : String)
  | registered (m : String) (u : UserPublic) (t : Token)
  | loggedIn (m : String) (u : UserBrief) (t : Token)
deriving DecidableEq

/-- An HTTP response: status code plus JSON body. -/
structure Resp where
  status : Nat
  body : RespBody
deriving DecidableEq

/-- res.status(401).json({error: 未授权}) — the defensive check at the
top of every asset handler. -/
def respUnauthorized : Resp := ⟨401, RespBody.err "未授权"⟩

/-- res.status(404).json({error: 资产不存在}) — returned uniformly for a
missing asset and for an asset owned by another user. -/
def respNotFound : Resp := ⟨404, RespBody.err "资产不存在"⟩

/-- res.status(500).json({error: 服务器错误}) — the generic catch branch
of every handler. -/
def respServerError : Resp := ⟨500, RespBody.err "服务器错误"⟩

/-- res.status(401).json({error: 用户名/邮箱或密码错误}) — the single
generic login-failure response. -/
def respLoginFailed : Resp := ⟨401, RespBody.err "用户名/邮箱或密码错误"⟩

/-- The check `!userId` on `req.user?.userId`: true when the verified
identity is absent or its numeric userId claim is 0 (JavaScript falsy). -/
def jsFalsyId : Option Nat → Bool
  | none => true
  | some n => n == 0

/-- The idiom `v || dflt` on a request field already holding a string or
nothing: the field value when truthy, otherwise the fallback. -/
def jsOr (v : JVal) (dflt : String) : String :=
  if v.truthy then v.getStr else dflt

/-- Errors the store can raise; uniqueViolation is the rejection of an
insert that would duplicate the (userId, symbol) unique key. -/
inductive DbError where
  | uniqueViolation
deriving DecidableEq

/-- symbol.toUpperCase(): character-wise uppercasing of the symbol. -/
def jsToUpper (s : String) : String := String.mk (s.data.map Char.toUpper)

/-- prisma.asset.findMany({where: {userId}, orderBy: {createdAt: desc}}):
the matching rows sorted newest-first.  Sorting is modelled by insertion
sort on the createdAt column, descending. -/
def insertByCreatedAtDesc (a : Asset) : List Asset → List Asset
  | [] => [a]
  | b :: l =>
    if b.createdAt ≤ a.createdAt then a :: b :: l
    else b :: insertByCreatedAtDesc a l

/-- Sorts rows by createdAt descending (model of the orderBy clause). -/
def sortByCreatedAtDesc : List Asset → List Asset
  | [] => []
  | a :: l => insertByCreatedAtDesc a (sortByCreatedAtDesc l)

/-- prisma.asset.findMany restricted to one owner, newest first. -/
def db_asset_findMany (uid : Nat) (st : AssetStore) : List Asset :=
  sortByCreatedAtDesc (st.assets.filter (fun a => a.userId == uid))

/-- prisma.asset.findUnique({where: {userId_symbol: {userId, symbol}}}). -/
def db_asset_findBySymbol (uid : Nat) (sym : String) (st : AssetStore) : Option Asset :=
  st.assets.find? (fun a => a.userId == uid && a.symbol == sym)

/-- prisma.asset.findUnique({where: {id}}). -/
def db_asset_findById (assetId : Nat) (st : AssetStore) : Option Asset :=
  st.assets.find? (fun a => a.id == assetId)

/-- prisma.asset.create: the storage layer enforces the
(userId, symbol) unique constraint and rejects a duplicate insert;
otherwise the row is appended with the next auto-increment id and the
current timestamp. -/
def db_asset_create (uid : Nat) (sym nm t : String) (nts : Option String)
    (now : Nat) (st : AssetStore) : Except DbError (Asset × AssetStore) :=
  if st.assets.any (fun a => a.userId == uid && a.symbol == sym) then
    Except.error DbError.uniqueViolation
  else
    let a : Asset := ⟨st.nextId, uid, sym, nm, t, nts, now⟩
    Except.ok (a, ⟨st.assets ++ [a], st.nextId + 1⟩)

/-- prisma.asset.update({where: {id}, data: ...}) with the three data
fields already computed: the row with that primary key becomes a2.
(The id column is unique, so at most one row changes.) -/
def db_asset_update (assetId : Nat) (a2 : Asset) (st : AssetStore) : AssetStore :=
  ⟨st.assets.map (fun x => if x.id == assetId then a2 else x), st.nextId⟩

/-- prisma.asset.delete({where: {id}}): removes the row with that id. -/
def db_asset_delete (assetId : Nat) (st : AssetStore) : AssetStore :=
  ⟨st.assets.filter (fun x => !(x.id == assetId)), st.nextId⟩

/-- getAssets: defensive identity check, then the owner-scoped,
newest-first listing.  Read-only, so it returns only the response. -/
def getAssets (user : Option Nat) (st : AssetStore) : Resp :=
  if jsFalsyId user then respUnauthorized
  else ⟨200, RespBody.assets (db_asset_findMany (user.getD 0) st)⟩

/-- The request body of addAsset ({symbol, name, type, notes}). -/
structure AddBody where
  symbol : JVal
  name : JVal
  ty : JVal
  notes : JVal
deriving DecidableEq

/-- addAsset, with the two store snapshots of its two awaits made
explicit: stCheck is the state read by the findUnique pre-check and
stIns the state in force when create executes (they differ only when a
concurrent insert lands between the two; a sequential call has
stCheck = stIns, see addAsset).  Any error thrown by the store is
handled by the catch branch, which answers 500. -/
def addAssetWith (user : Option Nat) (b : AddBody) (stCheck stIns : AssetStore)
    (now : Nat) : Resp × AssetStore :=
  if jsFalsyId user then (respUnauthorized, stIns)
  else if !(b.symbol.truthy && b.name.truthy && b.ty.truthy) then
    (⟨400, RespBody.err "资产代码、名称和类型都是必填项"⟩, stIns)
  else
    let uid := user.getD 0
    let sym := jsToUpper b.symbol.getStr
    match db_asset_findBySymbol uid sym stCheck with
    | some _ => (⟨400, RespBody.err "该资产已在您的列表中"⟩, stIns)
    | none =>
      match db_asset_create uid sym b.name.getStr b.ty.getStr
          (if b.notes.truthy then some b.notes.getStr else none) now stIns with
      | Except.ok (a, st2) => (⟨201, RespBody.assetMsg "资产添加成功" a⟩, st2)
      | Except.error _ => (respServerError, stIns)

/-- addAsset as a sequential call: both awaits see the same store. -/
def addAsset (user : Option Nat) (b : AddBody) (st : AssetStore) (now : Nat) :
    Resp × AssetStore :=
  addAssetWith user b st st now

/-- The request body of updateAsset ({name, type, notes}). -/
structure UpdateBody where
  name : JVal
  ty : JVal
  notes : JVal
deriving DecidableEq

/-- notes !== undefined ? notes : asset.notes — an absent field keeps
the stored notes, an explicit null stores null, a string is stored as
given (the empty string included). -/
def notesUpdate (v : JVal) (old : Option String) : Option String :=
  match v with
  | .undef => old
  | .null => none
  | .str s => some s

/-- The data object passed to prisma.asset.update, computed from the
found row a: name || a.name, type || a.ty, and the notes rule above. -/
def updatedAsset (a : Asset) (b : UpdateBody) : Asset :=
  ⟨a.id, a.userId, a.symbol,
   jsOr b.name a.name, jsOr b.ty a.ty, notesUpdate b.notes a.notes,
   a.createdAt⟩

/-- updateAsset: identity check, lookup by id, the combined
(!asset || asset.userId !== userId) masking check, then the partial
update. -/
def updateAsset (user : Option Nat) (assetId : Nat) (b : UpdateBody)
    (st : AssetStore) : Resp × AssetStore :=
  if jsFalsyId user then (respUnauthorized, st)
  else
    match db_asset_findById assetId st with
    | none => (respNotFound, st)
    | some a =>
      if !(a.userId == user.getD 0) then (respNotFound, st)
      else
        (⟨200, RespBody.assetMsg "资产更新成功" (updatedAsset a b)⟩,
         db_asset_update assetId (updatedAsset a b) st)

/-- deleteAsset: identity check, lookup by id, the same masking check
as updateAsset, then removal. -/
def deleteAsset (user : Option Nat) (assetId : Nat) (st : AssetStore) :
    Resp × AssetStore :=
  if jsFalsyId user then (respUnauthorized, st)
  else
    match db_asset_findById assetId st with
    | none => (respNotFound, st)
    | some a =>
      if !(a.userId == user.getD 0) then (respNotFound, st)
      else (⟨200, RespBody.msg "资产删除成功"⟩, db_asset_delete assetId st)

/-- prisma.user.findFirst({where: {OR: [{email}, {username}]}}): the
first stored user whose email or username matches. -/
def db_user_findFirst (e un : String) (users : List User) : Option User :=
  users.find? (fun u => u.email == e || u.username == un)

/-- The creation tail of register: hash the password, persist the user,
issue a token over {userId, email, username}, answer 201. -/
def registerCreate (e un pw : String) (users : List User)
    (hash : String → String) (nextId now : Nat) : Resp × List User :=
  let u : User := ⟨nextId, e, un, hash pw, now⟩
  (⟨201, RespBody.registered "注册成功" ⟨u.id, u.email, u.username, u.createdAt⟩
      ⟨u.id, u.email, u.username⟩⟩,
   users ++ [u])

/-- register: field presence, password length ≥ 6, the email/username
conflict check (email compared first on the found user), then creation.
hash is the opaque bcrypt primitive; nextId/now model the auto-increment
id and the clock. -/
def register (email username password : JVal) (users : List User)
    (hash : String → String) (nextId now : Nat) : Resp × List User :=
  if !(email.truthy && username.truthy && password.truthy) then
    (⟨400, RespBody.err "邮箱、用户名和密码都是必填项"⟩, users)
  else if password.getStr.length < 6 then
    (⟨400, RespBody.err "密码长度至少为 6 位"⟩, users)
  else
    match db_user_findFirst email.getStr username.getStr users with
    | some u =>
      if u.email == email.getStr then
        (⟨400, RespBody.err "该邮箱已被注册"⟩, users)
      else if u.username == username.getStr then
        (⟨400, RespBody.err "该用户名已被使用"⟩, users)
      else
        registerCreate email.getStr username.getStr password.getStr users hash nextId now
    | none =>
      registerCreate email.getStr username.getStr password.getStr users hash nextId now

/-- login: field presence, findFirst by email or username, password
verification through the opaque comparator, token issuance on success.
Both failure paths answer the same generic 401 body. -/
def login (emailOrUsername password : JVal) (users : List User)
    (cmp : String → String → Bool) : Resp :=
  if !(emailOrUsername.truthy && password.truthy) then
    ⟨400, RespBody.err "邮箱/用户名和密码都是必填项"⟩
  else
    match db_user_findFirst emailOrUsername.getStr emailOrUsername.getStr users with
    | none => respLoginFailed
    | some u =>
      if !(cmp password.getStr u.password) then respLoginFailed
      else
        ⟨200, RespBody.loggedIn "登录成功" ⟨u.id, u.email, u.username⟩
            ⟨u.id, u.email, u.username⟩⟩

/-- Well-formedness of the asset table, guaranteed by the schema: the
primary key is unique and below the auto-increment counter. -/
def AssetStore.WF (st : AssetStore) : Prop :=
  (st.assets.map (fun a => a.id)).Nodup ∧ ∀ a ∈ st.assets, a.id < st.nextId

theorem find_by_id_of_mem (l : List Asset)
    (hnd : (l.map (fun a => a.id)).Nodup) (a : Asset) (ha : a ∈ l) :
    l.find? (fun x => x.id == a.id) = some a := by
  induction l with
  | nil => cases ha
  | cons b l ih =>
    rw [List.map_cons, List.nodup_cons] at hnd
    rcases List.mem_cons.mp ha with h | h
    · subst h
      simp [List.find?_cons]
    · have hne : (b.id == a.id) = false := by
        rw [beq_eq_false_iff_ne]
        intro he
        exact hnd.1 (he ▸ List.mem_map_of_mem (fun x => x.id) h)
      rw [List.find?_cons, hne]
      exact ih hnd.2 h

theorem perm_insertByCreatedAtDesc (a : Asset) (l : List Asset) :
    List.Perm (insertByCreatedAtDesc a l) (a :: l) := by
  induction l with
  | nil => exact List.Perm.refl _
  | cons b l ih =>
    rw [insertByCreatedAtDesc]
    split
    · exact List.Perm.refl _
    · exact (List.Perm.cons b ih).trans (List.Perm.swap a b l)

theorem pairwise_insertByCreatedAtDesc (a : Asset) (l : List Asset)
    (h : List.Pairwise (fun x y => y.createdAt ≤ x.createdAt) l) :
    List.Pairwise (fun x y => y.createdAt ≤ x.createdAt)
      (insertByCreatedAtDesc a l) := by
  induction l with
  | nil => simp [insertByCreatedAtDesc]
  | cons b l ih =>
    rw [List.pairwise_cons] at h
    rw [insertByCreatedAtDesc]
    split
    · rename_i hba
      refine List.pairwise_cons.mpr ⟨?_, List.pairwise_cons.mpr h⟩
      intro y hy
      rcases List.mem_cons.mp hy with h1 | h1
      · subst h1; exact hba
      · exact le_trans (h.1 y h1) hba
    · rename_i hba
      refine List.pairwise_cons.mpr ⟨?_, ih h.2⟩
      intro y hy
      have hmem : y ∈ a :: l := (perm_insertByCreatedAtDesc a l).mem_iff.mp hy
      rcases List.mem_cons.mp hmem with h1 | h1
      · subst h1; exact le_of_lt (lt_of_not_le hba)
      · exact h.1 y h1

theorem sortByCreatedAtDesc_perm (l : List Asset) :
    List.Perm (sortByCreatedAtDesc l) l := by
  induction l with
  | nil => exact List.Perm.refl _
  | cons a l ih =>
    exact (perm_insertByCreatedAtDesc a _).trans (List.Perm.cons a ih)

theorem sortByCreatedAtDesc_sorted (l : List Asset) :
    List.Pairwise (fun x y => y.createdAt ≤ x.createdAt)
      (sortByCreatedAtDesc l) := by
  induction l with
  | nil => simp [sortByCreatedAtDesc]
  | cons a l ih => exact pairwise_insertByCreatedAtDesc a _ ih

example : (JVal.str "").truthy = false := by decide

example :
    addAsset (some 1) ⟨JVal.str "aapl", JVal.str "Apple", JVal.str "stock", JVal.undef⟩
      ⟨[], 1⟩ 5 =
    (⟨201, RespBody.assetMsg "资产添加成功" ⟨1, 1, "AAPL", "Apple", "stock", none, 5⟩⟩,
     ⟨[⟨1, 1, "AAPL", "Apple", "stock", none, 5⟩], 2⟩) := by decide

example :
    getAssets (some 2) ⟨[⟨1, 2, "A", "a", "stock", none, 1⟩, ⟨2, 2, "B", "b", "stock", none, 9⟩,
      ⟨3, 7, "C", "c", "stock", none, 5⟩], 4⟩ =
    ⟨200, RespBody.assets [⟨2, 2, "B", "b", "stock", none, 9⟩, ⟨1, 2, "A", "a", "stock", none, 1⟩]⟩ := by
  decide

/-- C10: every asset operation (list, add, update, delete) answers the
generic 401 body and leaves the store completely untouched whenever the
verified user id on the request is absent or equal to 0: the defensive
falsy check treats a userId claim of 0 like a missing identity, and the
constant response shows no store access influences the outcome. -/
theorem assetOps_falsyId_unauthorized (u : Option Nat)
    (hu : u = none ∨ u = some 0) (st : AssetStore) (b : AddBody)
    (b2 : UpdateBody) (i now : Nat) :
    getAssets u st = respUnauthorized ∧
    addAsset u b st now = (respUnauthorized, st) ∧
    updateAsset u i b2 st = (respUnauthorized, st) ∧
    deleteAsset u i st = (respUnauthorized, st) := by
  have hf : jsFalsyId u = true := by
    rcases hu with h | h <;> subst h <;> rfl
  refine ⟨?_, ?_, ?_, ?_⟩ <;>
    simp [getAssets, addAsset, addAssetWith, updateAsset, deleteAsset, hf]

/-- Witness for C10 at user none and user 0 on a concrete store. -/
theorem assetOps_falsyId_unauthorized_witness :
    (getAssets none ⟨[⟨5, 1, "AAPL", "Apple", "stock", none, 0⟩], 6⟩ = respUnauthorized ∧
      addAsset none ⟨JVal.str "btc", JVal.str "Bitcoin", JVal.str "crypto", JVal.undef⟩
        ⟨[⟨5, 1, "AAPL", "Apple", "stock", none, 0⟩], 6⟩ 9 =
        (respUnauthorized, ⟨[⟨5, 1, "AAPL", "Apple", "stock", none, 0⟩], 6⟩) ∧
      updateAsset none 5 ⟨JVal.str "x", JVal.undef, JVal.undef⟩
        ⟨[⟨5, 1, "AAPL", "Apple", "stock", none, 0⟩], 6⟩ =
        (respUnauthorized, ⟨[⟨5, 1, "AAPL", "Apple", "stock", none, 0⟩], 6⟩) ∧
      deleteAsset none 5 ⟨[⟨5, 1, "AAPL", "Apple", "stock", none, 0⟩], 6⟩ =
        (respUnauthorized, ⟨[⟨5, 1, "AAPL", "Apple", "stock", none, 0⟩], 6⟩)) ∧
    (getAssets (some 0) ⟨[⟨5, 1, "AAPL", "Apple", "stock", none, 0⟩], 6⟩ = respUnauthorized ∧
      addAsset (some 0) ⟨JVal.str "btc", JVal.str "Bitcoin", JVal.str "crypto", JVal.undef⟩
        ⟨[⟨5, 1, "AAPL", "Apple", "stock", none, 0⟩], 6⟩ 9 =
        (respUnauthorized, ⟨[⟨5, 1, "AAPL", "Apple", "stock", none, 0⟩], 6⟩) ∧
      updateAsset (some 0) 5 ⟨JVal.str "x", JVal.undef, JVal.undef⟩
        ⟨[⟨5, 1, "AAPL", "Apple", "stock", none, 0⟩], 6⟩ =
        (respUnauthorized, ⟨[⟨5, 1, "AAPL", "Apple", "stock", none, 0⟩], 6⟩) ∧
      deleteAsset (some 0) 5 ⟨[⟨5, 1, "AAPL", "Apple", "stock", none, 0⟩], 6⟩ =
        (respUnauthorized, ⟨[⟨5, 1, "AAPL", "Apple", "stock", none, 0⟩], 6⟩)) :=
  ⟨assetOps_falsyId_unauthorized none (Or.inl rfl)
      ⟨[⟨5, 1, "AAPL", "Apple", "stock", none, 0⟩], 6⟩
      ⟨JVal.str "btc", JVal.str "Bitcoin", JVal.str "crypto", JVal.undef⟩
      ⟨JVal.str "x", JVal.undef, JVal.undef⟩ 5 9,
   assetOps_falsyId_unauthorized (some 0) (Or.inr rfl)
      ⟨[⟨5, 1, "AAPL", "Apple", "stock", none, 0⟩], 6⟩
      ⟨JVal.str "btc", JVal.str "Bitcoin", JVal.str "crypto", JVal.undef⟩
      ⟨JVal.str "x", JVal.undef, JVal.undef⟩ 5 9⟩

/-- C1: an authenticated user distinct from the owner of an asset gets
the not-found outcome from both update and delete on that asset id, the
store is unchanged, and the response is the very same value returned for
an id that does not exist at all. -/
theorem crossUser_update_delete_masked (u1 u2 : Nat) (hne : u1 ≠ u2)
    (h1 : u1 ≠ 0) (a : Asset) (st : AssetStore) (hWF : st.WF)
    (ha : a ∈ st.assets) (hown : a.userId = u2) (b : UpdateBody)
    (j : Nat) (hj : ∀ x ∈ st.assets, x.id ≠ j) :
    updateAsset (some u1) a.id b st = (respNotFound, st) ∧
    deleteAsset (some u1) a.id st = (respNotFound, st) ∧
    updateAsset (some u1) j b st = (respNotFound, st) ∧
    deleteAsset (some u1) j st = (respNotFound, st) := by
  have hf : jsFalsyId (some u1) = false := by simp [jsFalsyId, h1]
  have hfind : db_asset_findById a.id st = some a :=
    find_by_id_of_mem st.assets hWF.1 a ha
  have hmiss : db_asset_findById j st = none := by
    rw [db_asset_findById, List.find?_eq_none]
    intro x hx
    simp [hj x hx]
  have howner : (a.userId == u1) = false := by
    rw [hown, beq_eq_false_iff_ne]
    exact fun h => hne h.symm
  refine ⟨?_, ?_, ?_, ?_⟩ <;>
    simp [updateAsset, deleteAsset, hf, hfind, hmiss, howner]

/-- Witness for C1: user 1 cannot touch asset 5 of user 2, and id 99 is
reported identically. -/
theorem crossUser_update_delete_masked_witness :
    updateAsset (some 1) 5 ⟨JVal.str "x", JVal.undef, JVal.undef⟩
        ⟨[⟨5, 2, "AAPL", "Apple", "stock", none, 0⟩], 6⟩ =
      (respNotFound, ⟨[⟨5, 2, "AAPL", "Apple", "stock", none, 0⟩], 6⟩) ∧
    deleteAsset (some 1) 5 ⟨[⟨5, 2, "AAPL", "Apple", "stock", none, 0⟩], 6⟩ =
      (respNotFound, ⟨[⟨5, 2, "AAPL", "Apple", "stock", none, 0⟩], 6⟩) ∧
    updateAsset (some 1) 99 ⟨JVal.str "x", JVal.undef, JVal.undef⟩
        ⟨[⟨5, 2, "AAPL", "Apple", "stock", none, 0⟩], 6⟩ =
      (respNotFound, ⟨[⟨5, 2, "AAPL", "Apple", "stock", none, 0⟩], 6⟩) ∧
    deleteAsset (some 1) 99 ⟨[⟨5, 2, "AAPL", "Apple", "stock", none, 0⟩], 6⟩ =
      (respNotFound, ⟨[⟨5, 2, "AAPL", "Apple", "stock", none, 0⟩], 6⟩) :=
  crossUser_update_delete_masked 1 2 (by decide) (by decide)
    ⟨5, 2, "AAPL", "Apple", "stock", none, 0⟩
    ⟨[⟨5, 2, "AAPL", "Apple", "stock", none, 0⟩], 6⟩
    ⟨by decide, by decide⟩ (by simp) rfl
    ⟨JVal.str "x", JVal.undef, JVal.undef⟩ 99 (by decide)

/-- C6: with both login fields present, the response for an unknown
identifier and the response for a known identifier with a failing
password check are the same value: the one generic 401 body. -/
theorem login_failure_indistinguishable (idf pw : String)
    (hidf : idf ≠ "") (hpw : pw ≠ "") (users : List User)
    (cmp : String → String → Bool) :
    (db_user_findFirst idf idf users = none →
      login (JVal.str idf) (JVal.str pw) users cmp = respLoginFailed) ∧
    (∀ u, db_user_findFirst idf idf users = some u →
      cmp pw u.password = false →
      login (JVal.str idf) (JVal.str pw) users cmp = respLoginFailed) := by
  have ht : (JVal.str idf).truthy = true := by
    simp [JVal.truthy, hidf]
  have htp : (JVal.str pw).truthy = true := by
    simp [JVal.truthy, hpw]
  constructor
  · intro h
    simp [login, ht, htp, JVal.getStr, h]
  · intro u h hc
    simp [login, ht, htp, JVal.getStr, h, hc]

/-- Witness for C6: unknown identifier bob, and known identifier alice
with a rejecting comparator, both map to respLoginFailed. -/
theorem login_failure_indistinguishable_witness :
    login (JVal.str "bob") (JVal.str "pw") [⟨1, "a@x.com", "alice", "H", 0⟩]
        (fun _ _ => false) = respLoginFailed ∧
    login (JVal.str "alice") (JVal.str "pw") [⟨1, "a@x.com", "alice", "H", 0⟩]
        (fun _ _ => false) = respLoginFailed :=
  ⟨(login_failure_indistinguishable "bob" "pw" (by decide) (by decide)
      [⟨1, "a@x.com", "alice", "H", 0⟩] (fun _ _ => false)).1 rfl,
   (login_failure_indistinguishable "alice" "pw" (by decide) (by decide)
      [⟨1, "a@x.com", "alice", "H", 0⟩] (fun _ _ => false)).2
      ⟨1, "a@x.com", "alice", "H", 0⟩ rfl rfl⟩

/-- C8: an authenticated list call returns status 200 with exactly the
assets owned by the caller (a permutation of the owner-filtered rows,
with matching membership), sorted by creation time descending, and an
empty collection when the caller owns nothing. -/
theorem getAssets_owned_sorted (u : Nat) (hu : u ≠ 0) (st : AssetStore) :
    ∃ l, getAssets (some u) st = ⟨200, RespBody.assets l⟩ ∧
      List.Perm l (st.assets.filter (fun a => a.userId == u)) ∧
      (∀ a, a ∈ l ↔ (a ∈ st.assets ∧ a.userId = u)) ∧
      List.Pairwise (fun a b => b.createdAt ≤ a.createdAt) l ∧
      ((∀ a ∈ st.assets, a.userId ≠ u) →
        getAssets (some u) st = ⟨200, RespBody.assets []⟩) := by
  have hf : jsFalsyId (some u) = false := by simp [jsFalsyId, hu]
  refine ⟨db_asset_findMany u st, ?_, ?_, ?_, ?_, ?_⟩
  · simp [getAssets, hf]
  · exact sortByCreatedAtDesc_perm _
  · intro a
    rw [db_asset_findMany, (sortByCreatedAtDesc_perm _).mem_iff, List.mem_filter]
    simp
  · exact sortByCreatedAtDesc_sorted _
  · intro hnone
    have hfil : st.assets.filter (fun a => a.userId == u) = [] := by
      rw [List.filter_eq_nil_iff]
      intro a ha
      simp [hnone a ha]
    simp [getAssets, hf, db_asset_findMany, hfil, sortByCreatedAtDesc]

/-- Witness for C8 on a store holding assets of users 2 and 7. -/
theorem getAssets_owned_sorted_witness :
    ∃ l, getAssets (some 2)
        ⟨[⟨1, 2, "A", "a", "stock", none, 1⟩, ⟨2, 2, "B", "b", "stock", none, 9⟩,
          ⟨3, 7, "C", "c", "stock", none, 5⟩], 4⟩ = ⟨200, RespBody.assets l⟩ ∧
      List.Perm l
        (List.filter (fun a => a.userId == 2)
          [⟨1, 2, "A", "a", "stock", none, 1⟩, ⟨2, 2, "B", "b", "stock", none, 9⟩,
           ⟨3, 7, "C", "c", "stock", none, 5⟩]) ∧
      (∀ a, a ∈ l ↔
        (a ∈ [(⟨1, 2, "A", "a", "stock", none, 1⟩ : Asset), ⟨2, 2, "B", "b", "stock", none, 9⟩,
          ⟨3, 7, "C", "c", "stock", none, 5⟩] ∧ a.userId = 2)) ∧
      List.Pairwise (fun a b => b.createdAt ≤ a.createdAt) l ∧
      ((∀ a ∈ [(⟨1, 2, "A", "a", "stock", none, 1⟩ : Asset), ⟨2, 2, "B", "b", "stock", none, 9⟩,
          ⟨3, 7, "C", "c", "stock", none, 5⟩], a.userId ≠ 2) →
        getAssets (some 2)
          ⟨[⟨1, 2, "A", "a", "stock", none, 1⟩, ⟨2, 2, "B", "b", "stock", none, 9⟩,
            ⟨3, 7, "C", "c", "stock", none, 5⟩], 4⟩ = ⟨200, RespBody.assets []⟩) :=
  getAssets_owned_sorted 2 (by decide)
    ⟨[⟨1, 2, "A", "a", "stock", none, 1⟩, ⟨2, 2, "B", "b", "stock", none, 9⟩,
      ⟨3, 7, "C", "c", "stock", none, 5⟩], 4⟩

/-- C3: an add with symbol, name, type present uppercases the symbol
before both the uniqueness check and storage — the created asset carries
the uppercased symbol and is appended to the store — and when the same
owner already holds an asset whose symbol equals that uppercase form,
the add answers the Conflict body with status 400 and creates nothing. -/
theorem addAsset_uppercase_conflict (u : Nat) (hu : u ≠ 0)
    (sym nm t : String) (hs : sym ≠ "") (hn : nm ≠ "") (ht : t ≠ "")
    (nts : JVal) (st : AssetStore) (now : Nat) :
    ((∀ a ∈ st.assets, ¬(a.userId = u ∧ a.symbol = jsToUpper sym)) →
      ∃ a2, addAsset (some u) ⟨JVal.str sym, JVal.str nm, JVal.str t, nts⟩ st now =
          (⟨201, RespBody.assetMsg "资产添加成功" a2⟩,
           ⟨st.assets ++ [a2], st.nextId + 1⟩) ∧
        a2.symbol = jsToUpper sym) ∧
    (∀ a ∈ st.assets, a.userId = u → a.symbol = jsToUpper sym →
      addAsset (some u) ⟨JVal.str sym, JVal.str nm, JVal.str t, nts⟩ st now =
        (⟨400, RespBody.err "该资产已在您的列表中"⟩, st)) := by
  have hf : jsFalsyId (some u) = false := by simp [jsFalsyId, hu]
  have hts : (JVal.str sym).truthy = true := by simp [JVal.truthy, hs]
  have htn : (JVal.str nm).truthy = true := by simp [JVal.truthy, hn]
  have htt : (JVal.str t).truthy = true := by simp [JVal.truthy, ht]
  constructor
  · intro hnone
    have hfind : db_asset_findBySymbol u (jsToUpper sym) st = none := by
      rw [db_asset_findBySymbol, List.find?_eq_none]
      intro x hx
      have := hnone x hx
      simp only [Bool.and_eq_true, beq_iff_eq]
      exact fun h => this ⟨h.1, h.2⟩
    have hany : (st.assets.any fun a => a.userId == u && a.symbol == jsToUpper sym) = false := by
      rw [Bool.eq_false_iff]
      intro hc
      obtain ⟨x, hx, hp⟩ := List.any_eq_true.mp hc
      simp only [Bool.and_eq_true, beq_iff_eq] at hp
      exact hnone x hx ⟨hp.1, hp.2⟩
    refine ⟨⟨st.nextId, u, jsToUpper sym, nm, t,
      (if nts.truthy then some nts.getStr else none), now⟩, ?_, rfl⟩
    simp [addAsset, addAssetWith, hf, hts, htn, htt, JVal.getStr, hfind,
      db_asset_create, hany]
  · intro a haMem ha1 ha2
    have hsome : ∃ x, db_asset_findBySymbol u (jsToUpper sym) st = some x := by
      rw [db_asset_findBySymbol]
      refine Option.isSome_iff_exists.mp ?_
      rw [List.find?_isSome]
      exact ⟨a, haMem, by simp [ha1, ha2]⟩
    obtain ⟨x, hx⟩ := hsome
    simp [addAsset, addAssetWith, hf, hts, htn, htt, JVal.getStr, hx]

/-- Witness for C3: adding aapl to an empty store creates the AAPL row;
adding aapl again to a store that holds AAPL for the same user answers
the Conflict body and leaves the store as it was. -/
theorem addAsset_uppercase_conflict_witness :
    (∃ a2, addAsset (some 1) ⟨JVal.str "aapl", JVal.str "Apple", JVal.str "stock", JVal.undef⟩
        ⟨[], 1⟩ 5 =
        (⟨201, RespBody.assetMsg "资产添加成功" a2⟩, ⟨[] ++ [a2], 1 + 1⟩) ∧
      a2.symbol = jsToUpper "aapl") ∧
    addAsset (some 1) ⟨JVal.str "aapl", JVal.str "Apple", JVal.str "stock", JVal.undef⟩
        ⟨[⟨1, 1, "AAPL", "Apple", "stock", none, 5⟩], 2⟩ 6 =
      (⟨400, RespBody.err "该资产已在您的列表中"⟩,
       ⟨[⟨1, 1, "AAPL", "Apple", "stock", none, 5⟩], 2⟩) :=
  ⟨(addAsset_uppercase_conflict 1 (by decide) "aapl" "Apple" "stock"
      (by decide) (by decide) (by decide) JVal.undef ⟨[], 1⟩ 5).1
      (by intro a ha; cases ha),
   (addAsset_uppercase_conflict 1 (by decide) "aapl" "Apple" "stock"
      (by decide) (by decide) (by decide) JVal.undef
      ⟨[⟨1, 1, "AAPL", "Apple", "stock", none, 5⟩], 2⟩ 6).2
      ⟨1, 1, "AAPL", "Apple", "stock", none, 5⟩ (by simp) rfl (by decide)⟩

/-- C9: a supplied but falsy notes field (empty string, null) makes the
add behave exactly as if notes were omitted — same response, same final
store, notes stored as null — and no add ever produces a record whose
notes is the empty string. -/
theorem addAsset_falsy_notes (u : Nat) (hu : u ≠ 0)
    (sym nm t : String) (hs : sym ≠ "") (hn : nm ≠ "") (ht : t ≠ "")
    (nts : JVal) (st : AssetStore) (now : Nat) :
    (nts.truthy = false →
      addAsset (some u) ⟨JVal.str sym, JVal.str nm, JVal.str t, nts⟩ st now =
        addAsset (some u) ⟨JVal.str sym, JVal.str nm, JVal.str t, JVal.undef⟩ st now) ∧
    (∀ x ∈ (addAsset (some u) ⟨JVal.str sym, JVal.str nm, JVal.str t, nts⟩ st now).2.assets,
      x ∈ st.assets ∨ x.notes ≠ some "") ∧
    (nts.truthy = false →
      ∀ x ∈ (addAsset (some u) ⟨JVal.str sym, JVal.str nm, JVal.str t, nts⟩ st now).2.assets,
        x ∈ st.assets ∨ x.notes = none) := by
  have hf : jsFalsyId (some u) = false := by simp [jsFalsyId, hu]
  have hts : (JVal.str sym).truthy = true := by simp [JVal.truthy, hs]
  have htn : (JVal.str nm).truthy = true := by simp [JVal.truthy, hn]
  have htt : (JVal.str t).truthy = true := by simp [JVal.truthy, ht]
  have hmain : ∀ nv : JVal,
      (addAsset (some u) ⟨JVal.str sym, JVal.str nm, JVal.str t, nv⟩ st now).2.assets = st.assets ∨
      (addAsset (some u) ⟨JVal.str sym, JVal.str nm, JVal.str t, nv⟩ st now).2.assets =
        st.assets ++ [⟨st.nextId, u, jsToUpper sym, nm, t,
          (if nv.truthy then some nv.getStr else none), now⟩] := by
    intro nv
    rcases hfind : db_asset_findBySymbol u (jsToUpper sym) st with _ | x
    · by_cases hany : (st.assets.any fun a => a.userId == u && a.symbol == jsToUpper sym) = true
      · left
        simp [addAsset, addAssetWith, hf, hts, htn, htt, JVal.getStr, hfind,
          db_asset_create, hany]
      · right
        simp [addAsset, addAssetWith, hf, hts, htn, htt, JVal.getStr, hfind,
          db_asset_create, hany]
    · left
      simp [addAsset, addAssetWith, hf, hts, htn, htt, JVal.getStr, hfind]
  refine ⟨?_, ?_, ?_⟩
  · intro hfalse
    have h0 : (if nts.truthy then some nts.getStr else none) = (none : Option String) := by
      simp [hfalse]
    have h1 : (if JVal.undef.truthy then some JVal.undef.getStr else none) = (none : Option String) := rfl
    simp only [addAsset, addAssetWith, hf, hts, htn, htt]
    rw [h0, h1]
  · intro x hx
    rcases hmain nts with h | h
    · rw [h] at hx
      exact Or.inl hx
    · rw [h] at hx
      rcases List.mem_append.mp hx with h1 | h1
      · exact Or.inl h1
      · right
        have hx2 : x = ⟨st.nextId, u, jsToUpper sym, nm, t,
            (if nts.truthy then some nts.getStr else none), now⟩ := by
          simpa using h1
        subst hx2
        by_cases hnt : nts.truthy = true
        · rcases nts with _ | _ | s
          · cases hnt
          · cases hnt
          · have hsne : s ≠ "" := by
              intro hcon
              subst hcon
              cases hnt
            simp [hnt, JVal.getStr, hsne]
        · have : nts.truthy = false := Bool.eq_false_iff.mpr hnt
          simp [this]
  · intro hfalse x hx
    rcases hmain nts with h | h
    · rw [h] at hx
      exact Or.inl hx
    · rw [h] at hx
      rcases List.mem_append.mp hx with h1 | h1
      · exact Or.inl h1
      · right
        have hx2 : x = ⟨st.nextId, u, jsToUpper sym, nm, t,
            (if nts.truthy then some nts.getStr else none), now⟩ := by
          simpa using h1
        subst hx2
        simp [hfalse]

/-- Witness for C9 at notes supplied as the empty string. -/
theorem addAsset_falsy_notes_witness :
    ((JVal.str "").truthy = false →
      addAsset (some 1) ⟨JVal.str "btc", JVal.str "Bitcoin", JVal.str "crypto", JVal.str ""⟩
          ⟨[], 1⟩ 5 =
        addAsset (some 1) ⟨JVal.str "btc", JVal.str "Bitcoin", JVal.str "crypto", JVal.undef⟩
          ⟨[], 1⟩ 5) ∧
    (∀ x ∈ (addAsset (some 1)
        ⟨JVal.str "btc", JVal.str "Bitcoin", JVal.str "crypto", JVal.str ""⟩
        ⟨[], 1⟩ 5).2.assets,
      x ∈ ([] : List Asset) ∨ x.notes ≠ some "") ∧
    ((JVal.str "").truthy = false →
      ∀ x ∈ (addAsset (some 1)
          ⟨JVal.str "btc", JVal.str "Bitcoin", JVal.str "crypto", JVal.str ""⟩
          ⟨[], 1⟩ 5).2.assets,
        x ∈ ([] : List Asset) ∨ x.notes = none) :=
  addAsset_falsy_notes 1 (by decide) "btc" "Bitcoin" "crypto"
    (by decide) (by decide) (by decide) (JVal.str "") ⟨[], 1⟩ 5

theorem updateAsset_success_shape (u : Nat) (hu : u ≠ 0) (a : Asset)
    (st : AssetStore) (hWF : st.WF) (ha : a ∈ st.assets) (hown : a.userId = u)
    (b : UpdateBody) :
    updateAsset (some u) a.id b st =
      (⟨200, RespBody.assetMsg "资产更新成功" (updatedAsset a b)⟩,
       db_asset_update a.id (updatedAsset a b) st) := by
  have hf : jsFalsyId (some u) = false := by simp [jsFalsyId, hu]
  have hfind : db_asset_findById a.id st = some a :=
    find_by_id_of_mem st.assets hWF.1 a ha
  have howner : (a.userId == u) = true := by simp [hown]
  simp [updateAsset, hf, hfind, howner]

/-- C4 counterexample: on the singleton store holding asset 5 with name
Apple, an update that supplies name as the explicit empty string leaves
the stored and returned name Apple instead of overwriting it with the
supplied value, and an update that supplies notes as the explicit empty
string stores the empty string itself. -/
theorem updateAsset_supplied_empty_counterexample :
    updateAsset (some 1) 5 ⟨JVal.str "", JVal.undef, JVal.undef⟩
        ⟨[⟨5, 1, "AAPL", "Apple", "stock", none, 0⟩], 6⟩ =
      (⟨200, RespBody.assetMsg "资产更新成功" ⟨5, 1, "AAPL", "Apple", "stock", none, 0⟩⟩,
       ⟨[⟨5, 1, "AAPL", "Apple", "stock", none, 0⟩], 6⟩) ∧
    ("Apple" : String) ≠ "" ∧
    updateAsset (some 1) 5 ⟨JVal.undef, JVal.undef, JVal.str ""⟩
        ⟨[⟨5, 1, "AAPL", "Apple", "stock", some "old", 0⟩], 6⟩ =
      (⟨200, RespBody.assetMsg "资产更新成功" ⟨5, 1, "AAPL", "Apple", "stock", some "", 0⟩⟩,
       ⟨[⟨5, 1, "AAPL", "Apple", "stock", some "", 0⟩], 6⟩) :=
  ⟨by decide, by decide, by decide⟩

/-- C4 amended: for an update of an existing owned asset, a supplied
non-empty name or type overwrites the stored value while a supplied
empty, null or omitted name or type retains the prior value; notes is
keyed on presence alone — a supplied string (the empty string included)
is stored as given, a supplied null stores null, and an omitted notes
keeps the previous notes; the store rewrites exactly the row with that
id. -/
theorem updateAsset_partial_semantics (u : Nat) (hu : u ≠ 0) (a : Asset)
    (st : AssetStore) (hWF : st.WF) (ha : a ∈ st.assets) (hown : a.userId = u)
    (b : UpdateBody) :
    ∃ a2, updateAsset (some u) a.id b st =
        (⟨200, RespBody.assetMsg "资产更新成功" a2⟩,
         ⟨st.assets.map (fun x => if x.id == a.id then a2 else x), st.nextId⟩) ∧
      (∀ s, s ≠ "" → b.name = JVal.str s → a2.name = s) ∧
      ((b.name = JVal.undef ∨ b.name = JVal.null ∨ b.name = JVal.str "") →
        a2.name = a.name) ∧
      (∀ s, s ≠ "" → b.ty = JVal.str s → a2.ty = s) ∧
      ((b.ty = JVal.undef ∨ b.ty = JVal.null ∨ b.ty = JVal.str "") →
        a2.ty = a.ty) ∧
      (∀ s, b.notes = JVal.str s → a2.notes = some s) ∧
      (b.notes = JVal.null → a2.notes = none) ∧
      (b.notes = JVal.undef → a2.notes = a.notes) := by
  refine ⟨updatedAsset a b,
    updateAsset_success_shape u hu a st hWF ha hown b, ?_, ?_, ?_, ?_, ?_, ?_, ?_⟩
  · intro s hs hb
    simp [updatedAsset, jsOr, hb, JVal.truthy, JVal.getStr, hs]
  · intro hb
    rcases hb with hb | hb | hb <;> simp [updatedAsset, jsOr, hb, JVal.truthy]
  · intro s hs hb
    simp [updatedAsset, jsOr, hb, JVal.truthy, JVal.getStr, hs]
  · intro hb
    rcases hb with hb | hb | hb <;> simp [updatedAsset, jsOr, hb, JVal.truthy]
  · intro s hb
    simp [updatedAsset, notesUpdate, hb]
  · intro hb
    simp [updatedAsset, notesUpdate, hb]
  · intro hb
    simp [updatedAsset, notesUpdate, hb]

/-- Witness for the amended C4 on a concrete owned asset. -/
theorem updateAsset_partial_semantics_witness :
    ∃ a2, updateAsset (some 1) 5 ⟨JVal.str "Apple Inc", JVal.undef, JVal.str ""⟩
        ⟨[⟨5, 1, "AAPL", "Apple", "stock", some "old", 0⟩], 6⟩ =
        (⟨200, RespBody.assetMsg "资产更新成功" a2⟩,
         ⟨List.map (fun x => if x.id == 5 then a2 else x)
            [⟨5, 1, "AAPL", "Apple", "stock", some "old", 0⟩], 6⟩) ∧
      (∀ s, s ≠ "" → JVal.str "Apple Inc" = JVal.str s → a2.name = s) ∧
      ((JVal.str "Apple Inc" = JVal.undef ∨ JVal.str "Apple Inc" = JVal.null ∨
          JVal.str "Apple Inc" = JVal.str "") → a2.name = "Apple") ∧
      (∀ s, s ≠ "" → JVal.undef = JVal.str s → a2.ty = s) ∧
      ((JVal.undef = JVal.undef ∨ JVal.undef = JVal.null ∨
          JVal.undef = JVal.str "") → a2.ty = "stock") ∧
      (∀ s, JVal.str "" = JVal.str s → a2.notes = some s) ∧
      (JVal.str "" = JVal.null → a2.notes = none) ∧
      (JVal.str "" = JVal.undef → a2.notes = some "old") :=
  updateAsset_partial_semantics 1 (by decide)
    ⟨5, 1, "AAPL", "Apple", "stock", some "old", 0⟩
    ⟨[⟨5, 1, "AAPL", "Apple", "stock", some "old", 0⟩], 6⟩
    ⟨by decide, by decide⟩ (by simp) rfl
    ⟨JVal.str "Apple Inc", JVal.undef, JVal.str ""⟩

/-- C5: a successful update leaves the id, owning user id, symbol and
creation time of the asset exactly as they were — only name, type and
notes can change — and every other row of the store is carried over
unchanged. -/
theorem updateAsset_frame (u : Nat) (hu : u ≠ 0) (a : Asset)
    (st : AssetStore) (hWF : st.WF) (ha : a ∈ st.assets) (hown : a.userId = u)
    (b : UpdateBody) :
    ∃ a2, updateAsset (some u) a.id b st =
        (⟨200, RespBody.assetMsg "资产更新成功" a2⟩,
         ⟨st.assets.map (fun x => if x.id == a.id then a2 else x), st.nextId⟩) ∧
      a2.id = a.id ∧ a2.userId = a.userId ∧ a2.symbol = a.symbol ∧
      a2.createdAt = a.createdAt ∧
      (∀ x ∈ st.assets, x.id ≠ a.id →
        x ∈ (updateAsset (some u) a.id b st).2.assets) := by
  refine ⟨updatedAsset a b,
    updateAsset_success_shape u hu a st hWF ha hown b, rfl, rfl, rfl, rfl, ?_⟩
  intro x hx hne
  rw [updateAsset_success_shape u hu a st hWF ha hown b]
  have hxid : (x.id == a.id) = false := beq_eq_false_iff_ne.mpr hne
  have heq : (if x.id == a.id then updatedAsset a b else x) = x := by
    rw [hxid]
    rfl
  have hmem :=
    List.mem_map_of_mem (fun y => if y.id == a.id then updatedAsset a b else y) hx
  simp only [] at hmem
  rw [heq] at hmem
  exact hmem

/-- Witness for C5 on a concrete owned asset next to a row of another
user. -/
theorem updateAsset_frame_witness :
    ∃ a2, updateAsset (some 1) 5 ⟨JVal.str "New", JVal.str "crypto", JVal.null⟩
        ⟨[⟨5, 1, "AAPL", "Apple", "stock", some "old", 0⟩,
          ⟨6, 2, "BTC", "Bitcoin", "crypto", none, 1⟩], 7⟩ =
        (⟨200, RespBody.assetMsg "资产更新成功" a2⟩,
         ⟨List.map (fun x => if x.id == 5 then a2 else x)
            [⟨5, 1, "AAPL", "Apple", "stock", some "old", 0⟩,
             ⟨6, 2, "BTC", "Bitcoin", "crypto", none, 1⟩], 7⟩) ∧
      a2.id = 5 ∧ a2.userId = 1 ∧ a2.symbol = "AAPL" ∧ a2.createdAt = 0 ∧
      (∀ x ∈ [(⟨5, 1, "AAPL", "Apple", "stock", some "old", 0⟩ : Asset),
          ⟨6, 2, "BTC", "Bitcoin", "crypto", none, 1⟩], x.id ≠ 5 →
        x ∈ (updateAsset (some 1) 5 ⟨JVal.str "New", JVal.str "crypto", JVal.null⟩
          ⟨[⟨5, 1, "AAPL", "Apple", "stock", some "old", 0⟩,
            ⟨6, 2, "BTC", "Bitcoin", "crypto", none, 1⟩], 7⟩).2.assets) :=
  updateAsset_frame 1 (by decide)
    ⟨5, 1, "AAPL", "Apple", "stock", some "old", 0⟩
    ⟨[⟨5, 1, "AAPL", "Apple", "stock", some "old", 0⟩,
      ⟨6, 2, "BTC", "Bitcoin", "crypto", none, 1⟩], 7⟩
    ⟨by decide, by decide⟩ (by simp) rfl
    ⟨JVal.str "New", JVal.str "crypto", JVal.null⟩

/-- C2 counterexample: with the pre-check reading an empty snapshot and
the insert executing against a store that already holds (1, AAPL), the
pre-check passes and the storage layer rejects the insert, yet the
handler answers the generic 500 server error — not the 400 Conflict the
claim requires. -/
theorem addAsset_race_counterexample :
    db_asset_findBySymbol 1 (jsToUpper "aapl") ⟨[], 6⟩ = none ∧
    db_asset_create 1 (jsToUpper "aapl") "Apple" "stock" none 7
        ⟨[⟨5, 1, "AAPL", "Apple", "stock", none, 0⟩], 6⟩ =
      Except.error DbError.uniqueViolation ∧
    addAssetWith (some 1) ⟨JVal.str "aapl", JVal.str "Apple", JVal.str "stock", JVal.undef⟩
        ⟨[], 6⟩ ⟨[⟨5, 1, "AAPL", "Apple", "stock", none, 0⟩], 6⟩ 7 =
      (respServerError, ⟨[⟨5, 1, "AAPL", "Apple", "stock", none, 0⟩], 6⟩) ∧
    respServerError.status ≠ 400 :=
  ⟨rfl, rfl, rfl, by decide⟩

/-- C2 amended: when the service-level pre-check passes but the storage
layer rejects the insert for violating the (userId, symbol) uniqueness
constraint, the generic catch of the handler surfaces the rejection as
the 500 server-error outcome, not as the Conflict outcome of the
pre-check; the store is left unchanged. -/
theorem addAsset_race_serverError (u : Nat) (hu : u ≠ 0) (b : AddBody)
    (stC stI : AssetStore) (now : Nat)
    (hsy : b.symbol.truthy = true) (hnm : b.name.truthy = true)
    (hty : b.ty.truthy = true)
    (hpre : db_asset_findBySymbol u (jsToUpper b.symbol.getStr) stC = none)
    (hdup : ∃ a ∈ stI.assets, a.userId = u ∧ a.symbol = jsToUpper b.symbol.getStr) :
    addAssetWith (some u) b stC stI now = (respServerError, stI) := by
  have hf : jsFalsyId (some u) = false := by simp [jsFalsyId, hu]
  have hany : (stI.assets.any fun a => a.userId == u && a.symbol == jsToUpper b.symbol.getStr) = true := by
    rw [List.any_eq_true]
    obtain ⟨a, haM, h1, h2⟩ := hdup
    exact ⟨a, haM, by simp [h1, h2]⟩
  simp [addAssetWith, hf, hsy, hnm, hty, hpre, db_asset_create, hany]

/-- Witness for the amended C2 at the concrete race of the
counterexample input. -/
theorem addAsset_race_serverError_witness :
    addAssetWith (some 1) ⟨JVal.str "aapl", JVal.str "Apple", JVal.str "stock", JVal.undef⟩
        ⟨[], 6⟩ ⟨[⟨5, 1, "AAPL", "Apple", "stock", none, 0⟩], 6⟩ 7 =
      (respServerError, ⟨[⟨5, 1, "AAPL", "Apple", "stock", none, 0⟩], 6⟩) :=
  addAsset_race_serverError 1 (by decide)
    ⟨JVal.str "aapl", JVal.str "Apple", JVal.str "stock", JVal.undef⟩
    ⟨[], 6⟩ ⟨[⟨5, 1, "AAPL", "Apple", "stock", none, 0⟩], 6⟩ 7
    (by decide) (by decide) (by decide) rfl
    ⟨⟨5, 1, "AAPL", "Apple", "stock", none, 0⟩, by simp, rfl, by decide⟩

/-- C7 counterexample: in a store where an earlier user bob matches the
requested username and a later user carol holds the requested email,
registering with that taken email answers the username-conflict message,
not the email-conflict message the claim requires for a taken email. -/
theorem register_taken_email_message_counterexample :
    (∃ u ∈ [(⟨1, "a@x.com", "bob", "H", 0⟩ : User), ⟨2, "b@x.com", "carol", "H", 0⟩],
        u.email = "b@x.com") ∧
    register (JVal.str "b@x.com") (JVal.str "bob") (JVal.str "secret1")
        [⟨1, "a@x.com", "bob", "H", 0⟩, ⟨2, "b@x.com", "carol", "H", 0⟩]
        (fun s => s) 3 9 =
      (⟨400, RespBody.err "该用户名已被使用"⟩,
       [⟨1, "a@x.com", "bob", "H", 0⟩, ⟨2, "b@x.com", "carol", "H", 0⟩]) ∧
    RespBody.err "该用户名已被使用" ≠ RespBody.err "该邮箱已被注册" :=
  ⟨by decide, rfl, by decide⟩

/-- C7 amended: with all fields present and password length at least 6,
any existing user matching the email or the username makes register
answer 400 and create no user; on the first stored user matching either
field the email comparison is made before the username comparison, so
when that first matching user holds the given email the email-conflict
message is returned (in particular whenever only the email is taken),
and a taken username with a fresh email yields the username-conflict
message; when an earlier user matches only the username while a later
user holds the email, the username-conflict message is returned. -/
theorem register_conflict_semantics (e un pw : String) (he : e ≠ "")
    (hun : un ≠ "") (hpl : ¬ pw.length < 6)
    (users : List User) (hash : String → String) (nextId now : Nat) :
    ((∃ u ∈ users, u.email = e ∨ u.username = un) →
      (register (JVal.str e) (JVal.str un) (JVal.str pw) users hash nextId now).1.status = 400 ∧
      (register (JVal.str e) (JVal.str un) (JVal.str pw) users hash nextId now).2 = users) ∧
    (∀ u, db_user_findFirst e un users = some u → u.email = e →
      register (JVal.str e) (JVal.str un) (JVal.str pw) users hash nextId now =
        (⟨400, RespBody.err "该邮箱已被注册"⟩, users)) ∧
    ((∀ u ∈ users, u.email ≠ e) → (∃ u ∈ users, u.username = un) →
      register (JVal.str e) (JVal.str un) (JVal.str pw) users hash nextId now =
        (⟨400, RespBody.err "该用户名已被使用"⟩, users)) := by
  have hpw : pw ≠ "" := by
    intro h
    subst h
    exact hpl (by decide)
  have hte : (JVal.str e).truthy = true := by simp [JVal.truthy, he]
  have htu : (JVal.str un).truthy = true := by simp [JVal.truthy, hun]
  have htp : (JVal.str pw).truthy = true := by simp [JVal.truthy, hpw]
  refine ⟨?_, ?_, ?_⟩
  · intro hex
    have hsome : ∃ u, db_user_findFirst e un users = some u := by
      rw [db_user_findFirst]
      refine Option.isSome_iff_exists.mp ?_
      rw [List.find?_isSome]
      obtain ⟨u, huM, h1⟩ := hex
      refine ⟨u, huM, ?_⟩
      rcases h1 with h1 | h1 <;> simp [h1]
    obtain ⟨u, hu⟩ := hsome
    have hpred := List.find?_some hu
    rw [Bool.or_eq_true] at hpred
    by_cases hmail : (u.email == e) = true
    · constructor <;>
        simp [register, hte, htu, htp, JVal.getStr, hpl, hu, hmail]
    · have huser : (u.username == un) = true := by
        rcases hpred with h | h
        · exact absurd h hmail
        · exact h
      have hmail2 : (u.email == e) = false := Bool.eq_false_iff.mpr hmail
      constructor <;>
        simp [register, hte, htu, htp, JVal.getStr, hpl, hu, hmail2, huser]
  · intro u hu hmail
    have hm : (u.email == e) = true := by simp [hmail]
    simp [register, hte, htu, htp, JVal.getStr, hpl, hu, hm]
  · intro hnomail hex
    have hsome : ∃ u, db_user_findFirst e un users = some u := by
      rw [db_user_findFirst]
      refine Option.isSome_iff_exists.mp ?_
      rw [List.find?_isSome]
      obtain ⟨u, huM, h1⟩ := hex
      exact ⟨u, huM, by simp [h1]⟩
    obtain ⟨u, hu⟩ := hsome
    have huM : u ∈ users := List.mem_of_find?_eq_some hu
    have hpred := List.find?_some hu
    rw [Bool.or_eq_true] at hpred
    have hmail2 : (u.email == e) = false := by
      rw [beq_eq_false_iff_ne]
      exact hnomail u huM
    have huser : (u.username == un) = true := by
      rcases hpred with h | h
      · rw [h] at hmail2
        cases hmail2
      · exact h
    simp [register, hte, htu, htp, JVal.getStr, hpl, hu, hmail2, huser]

/-- Witness for the amended C7: a taken email alone gives the
email-conflict message, and a taken username with a fresh email gives
the username-conflict message. -/
theorem register_conflict_semantics_witness :
    ((∃ u ∈ [(⟨1, "a@x.com", "alice", "H", 0⟩ : User)],
        u.email = "a@x.com" ∨ u.username = "bob") →
      (register (JVal.str "a@x.com") (JVal.str "bob") (JVal.str "secret1")
          [⟨1, "a@x.com", "alice", "H", 0⟩] (fun s => s) 2 9).1.status = 400 ∧
      (register (JVal.str "a@x.com") (JVal.str "bob") (JVal.str "secret1")
          [⟨1, "a@x.com", "alice", "H", 0⟩] (fun s => s) 2 9).2 =
        [⟨1, "a@x.com", "alice", "H", 0⟩]) ∧
    (∀ u, db_user_findFirst "a@x.com" "bob" [⟨1, "a@x.com", "alice", "H", 0⟩] = some u →
      u.email = "a@x.com" →
      register (JVal.str "a@x.com") (JVal.str "bob") (JVal.str "secret1")
          [⟨1, "a@x.com", "alice", "H", 0⟩] (fun s => s) 2 9 =
        (⟨400, RespBody.err "该邮箱已被注册"⟩, [⟨1, "a@x.com", "alice", "H", 0⟩])) ∧
    ((∀ u ∈ [(⟨1, "a@x.com", "alice", "H", 0⟩ : User)], u.email ≠ "fresh@x.com") →
      (∃ u ∈ [(⟨1, "a@x.com", "alice", "H", 0⟩ : User)], u.username = "alice") →
      register (JVal.str "fresh@x.com") (JVal.str "alice") (JVal.str "secret1")
          [⟨1, "a@x.com", "alice", "H", 0⟩] (fun s => s) 2 9 =
        (⟨400, RespBody.err "该用户名已被使用"⟩, [⟨1, "a@x.com", "alice", "H", 0⟩])) :=
  ⟨(register_conflict_semantics "a@x.com" "bob" "secret1" (by decide) (by decide)
      (by decide) [⟨1, "a@x.com", "alice", "H", 0⟩] (fun s => s) 2 9).1,
   (register_conflict_semantics "a@x.com" "bob" "secret1" (by decide) (by decide)
      (by decide) [⟨1, "a@x.com", "alice", "H", 0⟩] (fun s => s) 2 9).2.1,
   (register_conflict_semantics "fresh@x.com" "alice" "secret1" (by decide) (by decide)
      (by decide) [⟨1, "a@x.com", "alice", "H", 0⟩] (fun s => s) 2 9).2.2⟩
